import Mathlib

/-!
Verification of the operational-safeguards core of the modul8r repository.

The development shallowly embeds three Python components:

* `ThrottledBroadcaster` (src/modul8r/websocket_handlers.py): message
  batching with a rate-based circuit breaker.
* `SimpleEventLoopMonitor` (src/modul8r/performance_monitor.py): event-loop
  lag checks with standard/emergency degradation and recovery callbacks.
* `EnhancedLogCapture` (src/modul8r/logging_config.py): the bounded,
  deduplicating log store with age-based cleanup.

Conventions of the embedding:

* Python `float` wall-clock times, lags and rates become `ℚ` (the claims do
  not hinge on floating-point rounding).
* Async scheduling is made explicit: each operation takes the current time
  as an argument, and callback invocations / WebSocket sends become values
  returned by the operation (`DegEvent`, `Batch`) instead of side effects.
* The MD5 hex digest used for dedup keys is modelled by the hashed content
  string itself (a collision-free abstraction of the digest).
* Python's `set(list(hashes)[-50:])` prune keeps an implementation-defined
  half of the cache (set iteration order); it is modelled by an arbitrary
  function parameter `prune`, constrained in theorems only by properties
  that every choice of set order satisfies.
* ISO-8601 timestamp parsing (`datetime.fromisoformat`) is abstracted as a
  function parameter `parse : String → Option ℚ`.
-/

namespace Modul8r

/-! ## ThrottledBroadcaster (websocket_handlers.py, lines 16-166) -/

/-- The `batch_update` envelope built by `flush_batch`:
`{"type": "batch_update", "messages": ..., "timestamp": ..., "batch_size": ...}`. -/
structure Batch (Msg : Type) where
  messages : List Msg
  timestamp : ℚ
  batch_size : ℕ
  deriving Repr, DecidableEq

/-- State of a `ThrottledBroadcaster` (`__init__`, lines 28-43).
`flush_task_live` models `self.flush_task is not None and not self.flush_task.done()`. -/
structure Broadcaster (Msg : Type) where
  batch_interval : ℚ
  max_batch_size : ℕ
  pending_messages : List Msg
  flush_task_live : Bool
  last_flush_time : ℚ
  message_count : ℕ
  rate_limit_active : Bool
  circuit_breaker_threshold : ℚ
  circuit_breaker_window : ℚ
  circuit_breaker_recovery_time : ℚ
  deriving Repr, DecidableEq

/-- The denominator of line 147's rate:
`min(current_time - self.last_flush_time or 1, self.circuit_breaker_window)`;
Python's `x or 1` yields `1` exactly when `x` equals `0`. -/
def cbDenom {Msg : Type} (b : Broadcaster Msg) (current_time : ℚ) : ℚ :=
  min (if current_time - b.last_flush_time = 0 then 1
       else current_time - b.last_flush_time)
    b.circuit_breaker_window

/-- `_check_circuit_breaker(current_time)` (lines 135-152): recover when the
recovery time has elapsed since the last flush, then trip if the computed
message rate exceeds the threshold; returns the breaker's resulting state. -/
def checkCircuitBreaker {Msg : Type} (b : Broadcaster Msg) (current_time : ℚ) :
    Broadcaster Msg × Bool :=
  let b1 :=
    if b.rate_limit_active ∧
        current_time - b.last_flush_time > b.circuit_breaker_recovery_time then
      { b with rate_limit_active := false, message_count := 0 }
    else b
  let b2 :=
    if ¬ b1.rate_limit_active ∧
        (b1.message_count : ℚ) / cbDenom b1 current_time >
          b1.circuit_breaker_threshold then
      { b1 with rate_limit_active := true }
    else b1
  (b2, b2.rate_limit_active)

/-- `flush_batch` (lines 77-109): no-op on an empty pending list; otherwise
cancel the timer, emit the batch envelope, clear the pending list and record
the flush time (`finally: self.flush_task = None`). -/
def flushBatch {Msg : Type} (b : Broadcaster Msg) (current_time : ℚ) :
    Broadcaster Msg × Option (Batch Msg) :=
  if b.pending_messages.isEmpty then (b, none)
  else
    ({ b with pending_messages := [],
              last_flush_time := current_time,
              flush_task_live := false },
     some ⟨b.pending_messages, current_time, b.pending_messages.length⟩)

/-- `queue_message(message, ...)` (lines 45-64): circuit-breaker check, append,
count, ensure a timer flush is scheduled, and flush immediately when the batch
is full. -/
def queueMessage {Msg : Type} (b : Broadcaster Msg) (m : Msg) (current_time : ℚ) :
    Broadcaster Msg × Option (Batch Msg) :=
  let cb := checkCircuitBreaker b current_time
  if cb.2 then (cb.1, none)
  else
    let b2 : Broadcaster Msg := { cb.1 with
                  pending_messages := cb.1.pending_messages ++ [m],
                  message_count := cb.1.message_count + 1 }
    let b3 : Broadcaster Msg :=
      if b2.flush_task_live then b2 else { b2 with flush_task_live := true }
    if b3.pending_messages.length ≥ b3.max_batch_size then flushBatch b3 current_time
    else (b3, none)

/-- `get_stats()` (lines 154-166).  The Python code rounds `current_rate` and
`time_since_last_flush` to two decimals for display; the rounding is omitted
here (no claim concerns the rounded digits). -/
structure BroadcasterStats where
  pending_messages : ℕ
  total_messages : ℕ
  current_rate : ℚ
  circuit_breaker_active : Bool
  time_since_last_flush : ℚ
  deriving Repr, DecidableEq

def getStats {Msg : Type} (b : Broadcaster Msg) (current_time : ℚ) : BroadcasterStats :=
  let time_since_flush := current_time - b.last_flush_time
  { pending_messages := b.pending_messages.length,
    total_messages := b.message_count,
    current_rate := (b.message_count : ℚ) / max time_since_flush 1,
    circuit_breaker_active := b.rate_limit_active,
    time_since_last_flush := time_since_flush }

/-- Fold `queue_message` over a list of messages, all submitted at the same
instant (`immediate succession`), collecting every emitted batch. -/
def runQueue {Msg : Type} (b : Broadcaster Msg) (ms : List Msg) (t : ℚ) :
    Broadcaster Msg × List (Batch Msg) :=
  ms.foldl
    (fun acc m =>
      let r := queueMessage acc.1 m t
      (r.1, acc.2 ++ r.2.toList))
    (b, [])

/-! ## SimpleEventLoopMonitor (performance_monitor.py, lines 17-257) -/

/-- Degradation level passed to callbacks (`"standard"`, `"emergency"`,
`"recovery"`). -/
inductive DegLevel where
  | standard
  | emergency
  | recovery
  deriving Repr, DecidableEq

/-- One callback invocation: callback identity (registration handle), level,
and the `lag_ms` argument. -/
structure DegEvent where
  callback : ℕ
  level : DegLevel
  lag_ms : ℚ
  deriving Repr, DecidableEq

/-- One entry of `self.lag_measurements` (lines 92-96). -/
structure Measurement where
  timestamp : ℚ
  lag_ms : ℚ
  expected_interval : ℚ
  deriving Repr, DecidableEq

/-- State of a `SimpleEventLoopMonitor` (`__init__`, lines 29-49).  Callbacks
are identified by opaque registration handles. -/
structure Monitor where
  max_lag_ms : ℚ
  check_interval : ℚ
  last_check : ℚ
  lag_measurements : List Measurement
  max_measurements : ℕ
  degradation_active : Bool
  degradation_callbacks : List ℕ
  severe_lag_threshold : ℚ
  severe_lag_count : ℕ
  max_severe_lag_count : ℕ
  deriving Repr, DecidableEq

/-- `trigger_degradation(lag_ms)` (lines 132-151): fires only when degradation
is not already active; invokes every callback once with `("standard", lag_ms)`. -/
def triggerDegradation (m : Monitor) (lag_ms : ℚ) : Monitor × List DegEvent :=
  if m.degradation_active then (m, [])
  else
    ({ m with degradation_active := true },
     m.degradation_callbacks.map (fun c => ⟨c, .standard, lag_ms⟩))

/-- `trigger_emergency_degradation(lag_ms)` (lines 153-174): unconditionally
invokes every callback once with `("emergency", lag_ms)`, then resets
`severe_lag_count` to 0.  It does not touch `degradation_active`. -/
def triggerEmergencyDegradation (m : Monitor) (lag_ms : ℚ) : Monitor × List DegEvent :=
  ({ m with severe_lag_count := 0 },
   m.degradation_callbacks.map (fun c => ⟨c, .emergency, lag_ms⟩))

/-- `recover_from_degradation()` (lines 176-190): when degradation is active,
clears it and invokes every callback once with `("recovery", 0.0)`. -/
def recoverFromDegradation (m : Monitor) : Monitor × List DegEvent :=
  if m.degradation_active then
    ({ m with degradation_active := false },
     m.degradation_callbacks.map (fun c => ⟨c, .recovery, 0⟩))
  else (m, [])

/-- Lines 92-100: append the measurement to the ring, popping the oldest
when the ring is over capacity. -/
def newMeasurements (m : Monitor) (current_time lag_ms : ℚ) : List Measurement :=
  let ms0 := m.lag_measurements ++ [⟨current_time, lag_ms, m.check_interval⟩]
  if ms0.length > m.max_measurements then ms0.drop 1 else ms0

/-- `_check_event_loop_lag()` (lines 84-130), with the sampled
`time.perf_counter()` value passed in as `current_time`. -/
def checkEventLoopLag (m : Monitor) (current_time : ℚ) : Monitor × List DegEvent :=
  let lag_ms := (current_time - (m.last_check + m.check_interval)) * 1000
  let m1 : Monitor := { m with lag_measurements := newMeasurements m current_time lag_ms }
  let r :=
    if lag_ms > m1.max_lag_ms then
      if lag_ms > m1.severe_lag_threshold then
        let m2 : Monitor := { m1 with severe_lag_count := m1.severe_lag_count + 1 }
        if m2.severe_lag_count ≥ m2.max_severe_lag_count then
          triggerEmergencyDegradation m2 lag_ms
        else (m2, [])
      else
        triggerDegradation m1 lag_ms
    else
      let m2 : Monitor :=
        if m1.severe_lag_count > 0 then
          { m1 with severe_lag_count := m1.severe_lag_count - 1 }
        else m1
      if m2.degradation_active ∧ lag_ms < m2.max_lag_ms / 2 then
        recoverFromDegradation m2
      else (m2, [])
  ({ r.1 with last_check := current_time }, r.2)

/-- `is_healthy()` (lines 245-257): true with no measurements, else the mean
of the last five lags is within threshold, degradation is inactive and the
severe-lag counter is zero. -/
def isHealthy (m : Monitor) : Bool :=
  if m.lag_measurements.isEmpty then true
  else
    let recent := m.lag_measurements.drop (m.lag_measurements.length - 5)
    let avg := ((recent.map Measurement.lag_ms).sum) / recent.length
    decide (avg ≤ m.max_lag_ms) && !m.degradation_active &&
      decide (m.severe_lag_count = 0)

/-- The check-time that makes `_check_event_loop_lag` measure exactly
`lag_ms` milliseconds of lag. -/
def timeForLag (m : Monitor) (lag_ms : ℚ) : ℚ :=
  m.last_check + m.check_interval + lag_ms / 1000

/-- Fold `_check_event_loop_lag` over successive check times, collecting all
callback invocations. -/
def runChecks (m : Monitor) (ts : List ℚ) : Monitor × List DegEvent :=
  ts.foldl
    (fun acc t =>
      let r := checkEventLoopLag acc.1 t
      (r.1, acc.2 ++ r.2))
    (m, [])

/-- Fold checks driven by target lags: each check happens at the instant that
makes its measured `lag_ms` equal the given value. -/
def runChecksByLag (m : Monitor) (lags : List ℚ) : Monitor × List DegEvent :=
  lags.foldl
    (fun acc lag =>
      let r := checkEventLoopLag acc.1 (timeForLag acc.1 lag)
      (r.1, acc.2 ++ r.2))
    (m, [])

/-! ## EnhancedLogCapture (logging_config.py, lines 124-448)

A submitted record is a Python dict.  The fields the core reads by name are
modelled explicitly (`event`, `timestamp`, `request_id`, `level`, the internal
`_websocket_only` flag); every other non-underscore key/value pair is carried
opaquely in `payload`.  Underscore-prefixed keys other than the modelled flag
are irrelevant to the claims (they are stripped unread) and are elided. -/

/-- A record handed to `add_entry` (before stamping). -/
structure Entry where
  event : Option String
  timestamp : Option String
  request_id : Option String
  level : Option String
  websocket_only : Bool
  payload : List (String × String)
  deriving Repr, DecidableEq

/-- A retained record: `add_entry` has stamped `timestamp`, `level` and
`session_age` and stripped underscore-prefixed keys (lines 373-383). -/
structure StoredEntry where
  event : Option String
  timestamp : String
  request_id : Option String
  level : String
  session_age : ℚ
  payload : List (String × String)
  deriving Repr, DecidableEq

/-- State of an `EnhancedLogCapture` (`__init__`, lines 240-268).
`entries` is the `deque(maxlen=max_entries)`; `recent_hashes` is the dedup
cache `_recent_hashes`, kept in insertion order (the Python `set` fixes no
order; theorems never rely on one).  Subscribers are opaque handles. -/
structure Store where
  max_entries : ℕ
  max_age_seconds : ℚ
  entries : List StoredEntry
  subscribers : List ℕ
  recent_hashes : List String
  session_start_time : ℚ
  last_cleanup_time : ℚ
  deriving Repr, DecidableEq

/-- `has_subscribers()` (lines 223-225). -/
def hasSubscribers (s : Store) : Bool :=
  decide (s.subscribers.length > 0)

/-- The dedup content string of line 357:
`f"{event}{timestamp}{request_id}{level}"` over the raw (pre-stamping) entry,
with missing fields defaulting to the empty string.  Its MD5 hex digest is
modelled by the content itself. -/
def keyOf (e : Entry) : String :=
  e.event.getD "" ++ e.timestamp.getD "" ++ e.request_id.getD "" ++ e.level.getD ""

/-- One call's external inputs: the record plus the wall-clock values read
during the call (`datetime.now(UTC).isoformat()` and `time.time()`). -/
structure AddInput where
  entry : Entry
  nowIso : String
  now : ℚ
  deriving Repr, DecidableEq

/-- The retained form of an input record (lines 373-383): stamp `timestamp`
(if absent), `level` (default `"info"`) and `session_age`, and keep only
non-underscore keys. -/
def cleanOf (session_start_time : ℚ) (i : AddInput) : StoredEntry :=
  { event := i.entry.event,
    timestamp := i.entry.timestamp.getD i.nowIso,
    request_id := i.entry.request_id,
    level := i.entry.level.getD "info",
    session_age := i.now - session_start_time,
    payload := i.entry.payload.filter (fun kv => !kv.1.startsWith "_") }

/-- `EnhancedLogCapture.add_entry(entry)` (lines 340-397).  `prune` models the
cache replacement `set(list(self._recent_hashes)[-50:])` of line 371; the
cleanup-task (re)start of lines 344-350 and the subscriber fan-out of lines
390-397 do not touch the retained state and are not part of the step. -/
def addEntry (prune : List String → List String) (s : Store) (i : AddInput) : Store :=
  if !i.entry.websocket_only ∧ !hasSubscribers s then s
  else
    let k := keyOf i.entry
    if k ∈ s.recent_hashes then s
    else
      let hashes0 := s.recent_hashes ++ [k]
      let hashes1 := if hashes0.length > 100 then prune hashes0 else hashes0
      let es0 := s.entries ++ [cleanOf s.session_start_time i]
      let es1 :=
        if es0.length > s.max_entries then es0.drop (es0.length - s.max_entries)
        else es0
      { s with recent_hashes := hashes1, entries := es1 }

/-- Fold `add_entry` over a sequence of submissions. -/
def runAdd (prune : List String → List String) (s : Store) (inputs : List AddInput) :
    Store :=
  inputs.foldl (addEntry prune) s

/-- Whether a given call stores (appends) its record: it passes the
subscriber gate and is not deduplicated. -/
def entryStored (s : Store) (e : Entry) : Bool :=
  (e.websocket_only || hasSubscribers s) && !(decide (keyOf e ∈ s.recent_hashes))

/-- Number of calls in a submission sequence that store (append) their
record. -/
def storedCount (prune : List String → List String) (s : Store) :
    List AddInput → ℕ
  | [] => 0
  | i :: rest =>
    (if entryStored s i.entry then 1 else 0) +
      storedCount prune (addEntry prune s i) rest

/-- The age-eviction loop of `_perform_cleanup` (lines 294-315): pop entries
from the old end while their timestamp parses to a time before the cutoff or
fails to parse; stop at the first entry inside the age window.  Stored
entries always carry a timestamp (stamped by `add_entry`), so the
missing-timestamp branch of line 313 is unreachable. -/
def dropExpired (parse : String → Option ℚ) (cutoff : ℚ) :
    List StoredEntry → List StoredEntry
  | [] => []
  | e :: rest =>
    match parse e.timestamp with
    | none => dropExpired parse cutoff rest
    | some entry_time =>
      if entry_time < cutoff then dropExpired parse cutoff rest
      else e :: rest

/-- `_perform_cleanup()` (lines 285-338), with `time.time()` passed in as
`now` and the cutoff taken at `now - max_age_seconds`.  The optional psutil
memory sample (lines 317-328) does not affect the retained entries and is
omitted. -/
def performCleanup (parse : String → Option ℚ) (s : Store) (now : ℚ) : Store :=
  { s with entries := dropExpired parse (now - s.max_age_seconds) s.entries,
           last_cleanup_time := now }

/-- The parsed timestamp of a retained entry. -/
def ptime (parse : String → Option ℚ) (e : StoredEntry) : Option ℚ :=
  parse e.timestamp

/-- True when some retained entry has a parsable timestamp strictly older
than the cutoff. -/
def hasStaleEntry (parse : String → Option ℚ) (cutoff : ℚ)
    (entries : List StoredEntry) : Bool :=
  entries.any (fun e =>
    match parse e.timestamp with
    | some q => decide (q < cutoff)
    | none => false)

/-! ## LogStreamManager (websocket_handlers.py, lines 169-396)

Only the statistics paths needed by the claims are embedded.  The global
`event_loop_monitor` read by `get_performance_integrated_stats` is passed in
as an explicit `Monitor` value. -/

/-- The slice of `LogStreamManager` state the statistics paths read:
the connection set size and the broadcaster (`None` when
`settings.enable_message_throttling` is false, lines 177-186). -/
structure StreamManager (Msg : Type) where
  active_connections : ℕ
  throttled_broadcaster : Option (Broadcaster Msg)
  enable_message_throttling : Bool

/-- `LogStreamManager.__init__` (lines 172-186), restricted to the fields
above: the broadcaster exists exactly when throttling is enabled. -/
def mkStreamManager {Msg : Type} (enable_message_throttling : Bool)
    (fresh : Broadcaster Msg) : StreamManager Msg :=
  { active_connections := 0,
    throttled_broadcaster :=
      if enable_message_throttling then some fresh else none,
    enable_message_throttling := enable_message_throttling }

/-- The throttling part of `get_throttling_stats()` (lines 309-325). -/
structure ThrottlingStats where
  active_connections : ℕ
  throttling_enabled : Bool
  pending_messages : ℕ
  total_messages : ℕ
  current_rate : ℚ
  circuit_breaker_active : Bool
  deriving Repr, DecidableEq

def getThrottlingStats {Msg : Type} (mgr : StreamManager Msg) (t : ℚ) :
    ThrottlingStats :=
  match mgr.throttled_broadcaster, mgr.enable_message_throttling with
  | some b, true =>
    let s := getStats b t
    { active_connections := mgr.active_connections,
      throttling_enabled := true,
      pending_messages := s.pending_messages,
      total_messages := s.total_messages,
      current_rate := s.current_rate,
      circuit_breaker_active := s.circuit_breaker_active }
  | _, _ =>
    { active_connections := mgr.active_connections,
      throttling_enabled := false,
      pending_messages := 0,
      total_messages := 0,
      current_rate := 0,
      circuit_breaker_active := false }

/-- The document returned by `get_performance_integrated_stats()`
(lines 387-396); the `event_loop` part is the monitor state the stats were
computed from. -/
structure IntegratedStats where
  websocket : ThrottlingStats
  event_loop_degradation_active : Bool
  event_loop_severe_lag_count : ℕ
  integrated_health : Bool
  deriving Repr, DecidableEq

/-- `get_performance_integrated_stats()` (lines 387-396).  Line 395 evaluates
`event_loop_monitor.is_healthy() and not self.throttled_broadcaster.rate_limit_active`:
Python `and` short-circuits, so the attribute access on the broadcaster — an
`AttributeError` when the broadcaster is `None` — happens only when the
monitor reports healthy. -/
def getPerformanceIntegratedStats {Msg : Type} (mgr : StreamManager Msg)
    (mon : Monitor) (t : ℚ) : Except String IntegratedStats :=
  let ws := getThrottlingStats mgr t
  if isHealthy mon then
    match mgr.throttled_broadcaster with
    | none =>
      Except.error "AttributeError: NoneType object has no attribute rate_limit_active"
    | some b =>
      Except.ok
        { websocket := ws,
          event_loop_degradation_active := mon.degradation_active,
          event_loop_severe_lag_count := mon.severe_lag_count,
          integrated_health := isHealthy mon && !b.rate_limit_active }
  else
    Except.ok
      { websocket := ws,
        event_loop_degradation_active := mon.degradation_active,
        event_loop_severe_lag_count := mon.severe_lag_count,
        integrated_health := false }

/-! ## Helper lemmas: the three behaviours of `add_entry` -/

theorem hasSubscribers_nil {s : Store} (h : s.subscribers = []) :
    hasSubscribers s = false := by
  simp [hasSubscribers, h]

/-- Line 352-354: with no subscribers and no `_websocket_only` flag,
`add_entry` is a no-op. -/
theorem addEntry_skip (prune : List String → List String) (s : Store) (i : AddInput)
    (hflag : i.entry.websocket_only = false) (hsub : hasSubscribers s = false) :
    addEntry prune s i = s := by
  simp [addEntry, hflag, hsub]

/-- Lines 360-363: a record whose dedup key is in the cache is dropped. -/
theorem addEntry_dup (prune : List String → List String) (s : Store) (i : AddInput)
    (hk : keyOf i.entry ∈ s.recent_hashes) :
    addEntry prune s i = s := by
  unfold addEntry
  split
  · rfl
  · simp [hk]

/-- The bounded-append `if` of `add_entry` is `List.rtake`. -/
theorem ite_drop_eq_rtake (l : List α) (n : ℕ) :
    (if l.length > n then l.drop (l.length - n) else l) = l.rtake n := by
  by_cases h : l.length > n
  · simp [h, List.rtake]
  · simp [h, List.rtake, Nat.sub_eq_zero_of_le (Nat.le_of_not_lt h)]

/-- Lines 356-388: a qualifying record with a fresh dedup key is stored:
its key is cached (then possibly pruned) and its cleaned form appended to
the bounded ring. -/
theorem addEntry_store (prune : List String → List String) (s : Store) (i : AddInput)
    (hpass : i.entry.websocket_only = true ∨ hasSubscribers s = true)
    (hk : keyOf i.entry ∉ s.recent_hashes) :
    addEntry prune s i =
      { s with
          recent_hashes :=
            if (s.recent_hashes ++ [keyOf i.entry]).length > 100 then
              prune (s.recent_hashes ++ [keyOf i.entry])
            else s.recent_hashes ++ [keyOf i.entry],
          entries :=
            (s.entries ++ [cleanOf s.session_start_time i]).rtake s.max_entries } := by
  have hcond : ¬ ((!i.entry.websocket_only) = true ∧ (!hasSubscribers s) = true) := by
    rcases hpass with h | h <;> simp [h]
  unfold addEntry
  rw [if_neg hcond, if_neg hk]
  simp only [ite_drop_eq_rtake]

/-- C1: for every sequence of `addEntry` calls on the Bounded Log Store in
which no subscriber is present and no submitted record carries the
`_websocket_only` "store regardless" flag, the store — in particular its
retained-entry list — is identical before and after the sequence. -/
theorem c1_no_subscriber_suppression
    (prune : List String → List String) (s : Store) (inputs : List AddInput)
    (hsub : s.subscribers = [])
    (hflag : ∀ i ∈ inputs, i.entry.websocket_only = false) :
    runAdd prune s inputs = s := by
  induction inputs with
  | nil => rfl
  | cons i rest ih =>
    have h1 : addEntry prune s i = s :=
      addEntry_skip prune s i (hflag i (by simp)) (hasSubscribers_nil hsub)
    have : runAdd prune s (i :: rest) = runAdd prune (addEntry prune s i) rest := rfl
    rw [this, h1]
    exact ih fun j hj => hflag j (by simp [hj])

/-- Concrete instance of `c1_no_subscriber_suppression`. -/
theorem c1_no_subscriber_suppression_witness :
    runAdd (fun l => l)
      { max_entries := 3, max_age_seconds := 60, entries := [], subscribers := [],
        recent_hashes := [], session_start_time := 0, last_cleanup_time := 0 }
      [⟨⟨some "e1", some "t1", none, none, false, []⟩, "z", 1⟩,
       ⟨⟨some "e2", some "t2", none, none, false, []⟩, "z", 2⟩] =
      { max_entries := 3, max_age_seconds := 60, entries := [], subscribers := [],
        recent_hashes := [], session_start_time := 0, last_cleanup_time := 0 } :=
  c1_no_subscriber_suppression _ _ _ rfl (by decide)

/-! ## C3: deduplication -/

/-- A call never removes the dedup cache's hold on a key it already
contains, provided the prune keeps that key. -/
theorem addEntry_preserves_key (prune : List String → List String) (s : Store)
    (i : AddInput) (k : String) (hprune : ∀ l, k ∈ l → k ∈ prune l)
    (hk : k ∈ s.recent_hashes) :
    k ∈ (addEntry prune s i).recent_hashes := by
  by_cases hdup : keyOf i.entry ∈ s.recent_hashes
  · rw [addEntry_dup prune s i hdup]; exact hk
  · by_cases hpass : i.entry.websocket_only = true ∨ hasSubscribers s = true
    · rw [addEntry_store prune s i hpass hdup]
      have hmem : k ∈ s.recent_hashes ++ [keyOf i.entry] := by simp [hk]
      show k ∈ (if _ then _ else _)
      split
      · exact hprune _ hmem
      · exact hmem
    · push_neg at hpass
      have h1 : i.entry.websocket_only = false := by
        cases hwo : i.entry.websocket_only
        · rfl
        · exact absurd hwo hpass.1
      have h2 : hasSubscribers s = false := by
        cases hsb : hasSubscribers s
        · rfl
        · exact absurd hsb hpass.2
      rw [addEntry_skip prune s i h1 h2]; exact hk

/-- While a key is held by the dedup cache, no record with that key is ever
stored. -/
theorem storedCount_eq_zero_of_mem (prune : List String → List String)
    (k : String) (inputs : List AddInput) (s : Store)
    (hprune : ∀ l, k ∈ l → k ∈ prune l)
    (hkey : ∀ i ∈ inputs, keyOf i.entry = k)
    (hk : k ∈ s.recent_hashes) :
    storedCount prune s inputs = 0 := by
  induction inputs generalizing s with
  | nil => rfl
  | cons i rest ih =>
    have hki : keyOf i.entry ∈ s.recent_hashes := by
      rw [hkey i (by simp)]; exact hk
    have hstored : entryStored s i.entry = false := by
      simp [entryStored, hki]
    have hnext : k ∈ (addEntry prune s i).recent_hashes :=
      addEntry_preserves_key prune s i k hprune hk
    simp [storedCount, hstored,
      ih (addEntry prune s i) (fun j hj => hkey j (by simp [hj])) hnext]

/-- C3: among all records submitted to `addEntry` that share one
`(event, timestamp, request_id, level)` dedup key, while the key remains in
the short-term dedup cache at most one is ever stored; the later duplicates
are dropped silently.  `hprune` states that the cache replacement keeps the
key (the claim's "while that tuple's key remains in the cache"). -/
theorem c3_dedup_at_most_one
    (prune : List String → List String) (s : Store) (k : String)
    (inputs : List AddInput)
    (hprune : ∀ l, k ∈ l → k ∈ prune l)
    (hkey : ∀ i ∈ inputs, keyOf i.entry = k) :
    storedCount prune s inputs ≤ 1 := by
  induction inputs generalizing s with
  | nil => simp [storedCount]
  | cons i rest ih =>
    have hki : keyOf i.entry = k := hkey i (by simp)
    have hrest : ∀ j ∈ rest, keyOf j.entry = k := fun j hj => hkey j (by simp [hj])
    by_cases hmem : k ∈ s.recent_hashes
    · rw [storedCount_eq_zero_of_mem prune k (i :: rest) s hprune hkey hmem]
      omega
    · by_cases hstore : entryStored s i.entry = true
      · -- the record is stored; afterwards the key is cached, so no more
        have hpass : i.entry.websocket_only = true ∨ hasSubscribers s = true := by
          simp only [entryStored, Bool.and_eq_true, Bool.or_eq_true] at hstore
          exact hstore.1
        have hknotin : keyOf i.entry ∉ s.recent_hashes := by rw [hki]; exact hmem
        have hafter : k ∈ (addEntry prune s i).recent_hashes := by
          rw [addEntry_store prune s i hpass hknotin]
          have hmem2 : k ∈ s.recent_hashes ++ [keyOf i.entry] := by simp [hki]
          show k ∈ (if _ then _ else _)
          split
          · exact hprune _ hmem2
          · exact hmem2
        have hz := storedCount_eq_zero_of_mem prune k rest (addEntry prune s i)
          hprune hrest hafter
        simp [storedCount, hstore, hz]
      · have hstore' : entryStored s i.entry = false := by
          revert hstore; cases entryStored s i.entry <;> simp
        -- the record is skipped without touching the cache
        have hskip : addEntry prune s i = s := by
          simp only [entryStored, Bool.and_eq_true, Bool.or_eq_true] at hstore'
          by_cases hpass : i.entry.websocket_only = true ∨ hasSubscribers s = true
          · have : keyOf i.entry ∈ s.recent_hashes := by
              rcases Bool.and_eq_false_iff.mp hstore' with h | h
              · exfalso
                rcases hpass with hp | hp <;> simp [hp] at h
              · simpa using h
            exact addEntry_dup prune s i this
          · push_neg at hpass
            have h1 : i.entry.websocket_only = false := by
              cases hwo : i.entry.websocket_only
              · rfl
              · exact absurd hwo hpass.1
            have h2 : hasSubscribers s = false := by
              cases hsb : hasSubscribers s
              · rfl
              · exact absurd hsb hpass.2
            exact addEntry_skip prune s i h1 h2
        calc storedCount prune s (i :: rest)
            = storedCount prune s rest := by simp [storedCount, hstore', hskip]
          _ ≤ 1 := ih s hrest

/-- Concrete instance of `c3_dedup_at_most_one`: three submissions with the
same dedup key, at most one stored. -/
theorem c3_dedup_at_most_one_witness :
    storedCount (fun l => l)
      { max_entries := 5, max_age_seconds := 60, entries := [], subscribers := [7],
        recent_hashes := [], session_start_time := 0, last_cleanup_time := 0 }
      [⟨⟨some "e", some "t", none, none, false, []⟩, "z", 1⟩,
       ⟨⟨some "e", some "t", none, none, false, []⟩, "z", 2⟩,
       ⟨⟨some "e", some "t", none, none, false, []⟩, "z", 3⟩] ≤ 1 :=
  c3_dedup_at_most_one _ _ "et" _ (fun _ h => h) (by decide)

/-! ## C2: capacity bound and oldest-first eviction -/

theorem rtake_length_le (l : List α) (n : ℕ) : (l.rtake n).length ≤ n := by
  simp only [List.rtake, List.length_drop]
  omega

theorem rtake_of_length_le {l : List α} {n : ℕ} (h : l.length ≤ n) :
    l.rtake n = l := by
  simp [List.rtake, Nat.sub_eq_zero_of_le h]

theorem take_append_take (zs ws : List α) (n : ℕ) :
    (zs ++ ws.take n).take n = (zs ++ ws).take n := by
  rw [List.take_append_eq_append_take, List.take_append_eq_append_take,
    List.take_take, Nat.min_eq_left (Nat.sub_le n zs.length)]

/-- Re-bounding after appending to an already-bounded list gives the same
result as bounding the full append: the deque only ever forgets elements
that a longer history would also have evicted. -/
theorem rtake_append_rtake (l ys : List α) (n : ℕ) :
    (l.rtake n ++ ys).rtake n = (l ++ ys).rtake n := by
  simp only [List.rtake_eq_reverse_take_reverse, List.reverse_append,
    List.reverse_reverse]
  rw [take_append_take]

/-- Characterization of a run of qualifying, non-deduplicated `addEntry`
calls: the retained list is the capacity-bounded tail of the full submission
history, and the bookkeeping fields are preserved. -/
theorem runAdd_char (prune : List String → List String)
    (hprune : ∀ l x, x ∈ prune l → x ∈ l) :
    ∀ (inputs : List AddInput) (s : Store),
    hasSubscribers s = true →
    (inputs.map (fun i => keyOf i.entry)).Nodup →
    (∀ i ∈ inputs, keyOf i.entry ∉ s.recent_hashes) →
    s.entries.length ≤ s.max_entries →
    (runAdd prune s inputs).entries
        = (s.entries ++ inputs.map (cleanOf s.session_start_time)).rtake s.max_entries
    ∧ (runAdd prune s inputs).subscribers = s.subscribers
    ∧ (runAdd prune s inputs).max_entries = s.max_entries
    ∧ (runAdd prune s inputs).session_start_time = s.session_start_time
    ∧ (∀ x ∈ (runAdd prune s inputs).recent_hashes,
        x ∈ s.recent_hashes ∨ x ∈ inputs.map (fun i => keyOf i.entry)) := by
  intro inputs
  induction inputs with
  | nil =>
    intro s _ _ _ hlen
    refine ⟨?_, rfl, rfl, rfl, fun x hx => Or.inl hx⟩
    simp [runAdd, rtake_of_length_le hlen]
  | cons i rest ih =>
    intro s hsub hnodup hfresh hlen
    have hk : keyOf i.entry ∉ s.recent_hashes := hfresh i (by simp)
    have hstep := addEntry_store prune s i (Or.inr hsub) hk
    set s1 := addEntry prune s i with hs1
    have he1 : s1.entries = (s.entries ++ [cleanOf s.session_start_time i]).rtake s.max_entries := by
      rw [hstep]
    have hsub1 : s1.subscribers = s.subscribers := by rw [hstep]
    have hmax1 : s1.max_entries = s.max_entries := by rw [hstep]
    have hstart1 : s1.session_start_time = s.session_start_time := by rw [hstep]
    have hhash1 : ∀ x ∈ s1.recent_hashes, x ∈ s.recent_hashes ∨ x = keyOf i.entry := by
      intro x hx
      rw [hstep] at hx
      simp only at hx
      have hx2 : x ∈ s.recent_hashes ++ [keyOf i.entry] := by
        by_cases h100 : (s.recent_hashes ++ [keyOf i.entry]).length > 100
        · rw [if_pos h100] at hx
          exact hprune _ x hx
        · rwa [if_neg h100] at hx
      simpa using hx2
    have hsub1' : hasSubscribers s1 = true := by
      rw [hasSubscribers, hsub1]
      rw [hasSubscribers] at hsub
      exact hsub
    have hnodup1 : (rest.map (fun i => keyOf i.entry)).Nodup := by
      simpa using hnodup.of_cons
    have hheadfresh : keyOf i.entry ∉ rest.map (fun i => keyOf i.entry) := by
      have := hnodup
      simp only [List.map_cons, List.nodup_cons] at this
      exact this.1
    have hfresh1 : ∀ j ∈ rest, keyOf j.entry ∉ s1.recent_hashes := by
      intro j hj hmem
      rcases hhash1 _ hmem with h | h
      · exact hfresh j (by simp [hj]) h
      · exact hheadfresh (h ▸ List.mem_map_of_mem (fun i => keyOf i.entry) hj)
    have hlen1 : s1.entries.length ≤ s1.max_entries := by
      rw [he1, hmax1]
      exact rtake_length_le _ _
    have hrun : runAdd prune s (i :: rest) = runAdd prune s1 rest := rfl
    obtain ⟨ihe, ihsub, ihmax, ihstart, ihhash⟩ := ih s1 hsub1' hnodup1 hfresh1 hlen1
    refine ⟨?_, ?_, ?_, ?_, ?_⟩
    · rw [hrun, ihe, he1, hmax1, hstart1, rtake_append_rtake]
      simp
    · rw [hrun, ihsub, hsub1]
    · rw [hrun, ihmax, hmax1]
    · rw [hrun, ihstart, hstart1]
    · intro x hx
      rw [hrun] at hx
      rcases ihhash x hx with h | h
      · rcases hhash1 x h with h' | h'
        · exact Or.inl h'
        · exact Or.inr (by simp [h'])
      · exact Or.inr (by simp; right; simpa using h)

/-- C2: for every store with `max_entries = N` and every `k > 0`, after
`N + k` qualifying (stored, non-deduplicated) submissions, exactly the `N`
most recent records are retained in insertion order (the oldest `k` having
been evicted), and no intermediate point retains more than `N`. -/
theorem c2_capacity_eviction
    (prune : List String → List String) (s : Store) (inputs : List AddInput)
    (N k : ℕ)
    (hprune : ∀ l x, x ∈ prune l → x ∈ l)
    (hN : s.max_entries = N)
    (hempty : s.entries = [])
    (hsub : hasSubscribers s = true)
    (hnodup : (inputs.map (fun i => keyOf i.entry)).Nodup)
    (hfresh : ∀ i ∈ inputs, keyOf i.entry ∉ s.recent_hashes)
    (hlen : inputs.length = N + k) (hkpos : 0 < k) :
    (runAdd prune s inputs).entries
        = (inputs.map (cleanOf s.session_start_time)).drop k
    ∧ (∀ j, ((runAdd prune s (inputs.take j)).entries).length ≤ N) := by
  constructor
  · obtain ⟨he, -, -, -, -⟩ := runAdd_char prune hprune inputs s hsub hnodup hfresh
      (by simp [hempty])
    rw [he, hempty, hN]
    simp only [List.nil_append, List.rtake]
    rw [List.length_map, hlen]
    congr 1
    omega
  · intro j
    have hnodupj : ((inputs.take j).map (fun i => keyOf i.entry)).Nodup := by
      rw [List.map_take]
      exact hnodup.sublist ((inputs.map (fun i => keyOf i.entry)).take_sublist j)
    have hfreshj : ∀ i ∈ inputs.take j, keyOf i.entry ∉ s.recent_hashes :=
      fun i hi => hfresh i (List.mem_of_mem_take hi)
    obtain ⟨he, -, hmax, -, -⟩ := runAdd_char prune hprune (inputs.take j) s hsub
      hnodupj hfreshj (by simp [hempty])
    rw [he, hN]
    exact rtake_length_le _ _

/-- Concrete instance of `c2_capacity_eviction`: capacity 2, three inserts,
the first record evicted. -/
theorem c2_capacity_eviction_witness :
    (runAdd (fun l => l)
      { max_entries := 2, max_age_seconds := 60, entries := [], subscribers := [7],
        recent_hashes := [], session_start_time := 0, last_cleanup_time := 0 }
      [⟨⟨some "e1", some "t1", none, none, false, []⟩, "z", 1⟩,
       ⟨⟨some "e2", some "t2", none, none, false, []⟩, "z", 2⟩,
       ⟨⟨some "e3", some "t3", none, none, false, []⟩, "z", 3⟩]).entries
      = ([⟨⟨some "e1", some "t1", none, none, false, []⟩, "z", 1⟩,
          ⟨⟨some "e2", some "t2", none, none, false, []⟩, "z", 2⟩,
          ⟨⟨some "e3", some "t3", none, none, false, []⟩, "z", 3⟩].map
          (cleanOf 0)).drop 1 :=
  (c2_capacity_eviction (fun l => l)
    { max_entries := 2, max_age_seconds := 60, entries := [], subscribers := [7],
      recent_hashes := [], session_start_time := 0, last_cleanup_time := 0 }
    [⟨⟨some "e1", some "t1", none, none, false, []⟩, "z", 1⟩,
     ⟨⟨some "e2", some "t2", none, none, false, []⟩, "z", 2⟩,
     ⟨⟨some "e3", some "t3", none, none, false, []⟩, "z", 3⟩]
    2 1 (fun _ _ h => h) rfl rfl rfl (by decide) (by decide) rfl
    (by decide)).1

/-! ## C4: size-triggered single flush -/

/-- An untripped breaker whose current rate is within threshold stays
untripped and leaves the broadcaster unchanged. -/
theorem checkCB_no_trip {Msg : Type} {b : Broadcaster Msg} {t : ℚ}
    (hactive : b.rate_limit_active = false)
    (hrate : ¬ ((b.message_count : ℚ) / cbDenom b t > b.circuit_breaker_threshold)) :
    checkCircuitBreaker b t = (b, false) := by
  unfold checkCircuitBreaker
  simp only [hactive, Bool.false_eq_true, false_and, if_false, not_false_eq_true,
    true_and]
  rw [if_neg hrate, hactive]

/-- A within-threshold `queue_message` call that does not fill the batch:
the message is appended, the counter bumped, a timer flush scheduled, and
nothing is emitted. -/
theorem queueMessage_no_flush {Msg : Type} {b : Broadcaster Msg} {m : Msg} {t : ℚ}
    (hactive : b.rate_limit_active = false)
    (hrate : ¬ ((b.message_count : ℚ) / cbDenom b t > b.circuit_breaker_threshold))
    (hroom : b.pending_messages.length + 1 < b.max_batch_size) :
    queueMessage b m t =
      ({ b with pending_messages := b.pending_messages ++ [m],
                message_count := b.message_count + 1,
                flush_task_live := true }, none) := by
  unfold queueMessage
  rw [checkCB_no_trip hactive hrate]
  simp only [Bool.false_eq_true, if_false]
  cases hfl : b.flush_task_live with
  | false =>
    simp only [hfl, Bool.false_eq_true, if_false]
    rw [if_neg (by simp; omega)]
  | true =>
    simp only [hfl, if_true]
    rw [if_neg (by simp; omega)]

/-- A within-threshold `queue_message` call that fills the batch: a single
`batch_update` envelope with all pending messages is emitted, the pending
list cleared, the flush time recorded and the timer cancelled. -/
theorem queueMessage_flush {Msg : Type} {b : Broadcaster Msg} {m : Msg} {t : ℚ}
    (hactive : b.rate_limit_active = false)
    (hrate : ¬ ((b.message_count : ℚ) / cbDenom b t > b.circuit_breaker_threshold))
    (hfull : b.max_batch_size ≤ b.pending_messages.length + 1) :
    queueMessage b m t =
      ({ b with pending_messages := [],
                message_count := b.message_count + 1,
                last_flush_time := t,
                flush_task_live := false },
       some ⟨b.pending_messages ++ [m], t, b.pending_messages.length + 1⟩) := by
  unfold queueMessage
  rw [checkCB_no_trip hactive hrate]
  simp only [Bool.false_eq_true, if_false]
  cases hfl : b.flush_task_live with
  | false =>
    simp only [hfl, Bool.false_eq_true, if_false]
    rw [if_pos (by simp; omega)]
    unfold flushBatch
    rw [if_neg (by simp)]
    simp
  | true =>
    simp only [hfl, if_true]
    rw [if_pos (by simp; omega)]
    unfold flushBatch
    rw [if_neg (by simp)]
    simp

/-- Unfolding `runQueue` one message at a time. -/
theorem runQueue_go {Msg : Type} (t : ℚ) :
    ∀ (ms : List Msg) (b : Broadcaster Msg) (acc : List (Batch Msg)),
    ms.foldl
      (fun a m =>
        let r := queueMessage a.1 m t
        (r.1, a.2 ++ r.2.toList)) (b, acc)
      = ((runQueue b ms t).1, acc ++ (runQueue b ms t).2) := by
  intro ms
  induction ms with
  | nil => intro b acc; simp [runQueue]
  | cons m rest ih =>
    intro b acc
    simp only [runQueue, List.foldl_cons]
    rw [ih, ih]
    simp

/-- Filling calls short of the batch limit accumulate pending messages in
order without emitting anything. -/
theorem runQueue_fill {Msg : Type} (t : ℚ) :
    ∀ (ms : List Msg) (b : Broadcaster Msg),
    b.rate_limit_active = false →
    b.flush_task_live = true →
    (∀ j < ms.length,
      ¬ (((b.message_count : ℚ) + j) / cbDenom b t > b.circuit_breaker_threshold)) →
    b.pending_messages.length + ms.length < b.max_batch_size →
    runQueue b ms t =
      ({ b with pending_messages := b.pending_messages ++ ms,
                message_count := b.message_count + ms.length }, []) := by
  intro ms
  induction ms with
  | nil =>
    intro b hactive hlive _ _
    simp only [runQueue, List.foldl_nil, List.append_nil, List.length_nil,
      Nat.add_zero]
  | cons m rest ih =>
    intro b hactive hlive htrip hroom
    have hrate0 : ¬ ((b.message_count : ℚ) / cbDenom b t > b.circuit_breaker_threshold) := by
      have h0 := htrip 0 (by simp)
      simpa using h0
    have hroom0 : b.pending_messages.length + 1 < b.max_batch_size := by
      simp only [List.length_cons] at hroom
      omega
    have hstep := queueMessage_no_flush (b := b) (m := m) (t := t) hactive hrate0 hroom0
    have hrun : runQueue b (m :: rest) t =
        runQueue
          { b with pending_messages := b.pending_messages ++ [m],
                   message_count := b.message_count + 1,
                   flush_task_live := true } rest t := by
      simp only [runQueue, List.foldl_cons, hstep]
      rw [runQueue_go, runQueue_go]
      simp [runQueue]
    rw [hrun,
      ih { b with pending_messages := b.pending_messages ++ [m],
                  message_count := b.message_count + 1,
                  flush_task_live := true }
        hactive rfl ?ht ?hr]
    case ht =>
      intro j hj
      have h1 := htrip (j + 1) (by simp; omega)
      have hden :
          cbDenom
            { b with pending_messages := b.pending_messages ++ [m],
                     message_count := b.message_count + 1,
                     flush_task_live := true } t = cbDenom b t := rfl
      rw [hden]
      convert h1 using 3
      push_cast
      ring
    case hr =>
      have hroom2 : b.pending_messages.length + (rest.length + 1) < b.max_batch_size := by
        simpa using hroom
      show (b.pending_messages ++ [m]).length + rest.length < b.max_batch_size
      rw [List.length_append]
      simp only [List.length_singleton]
      omega
    have h1 : (b.pending_messages ++ [m]) ++ rest = b.pending_messages ++ m :: rest := by
      simp
    have h2 : b.message_count + 1 + rest.length = b.message_count + (m :: rest).length := by
      simp only [List.length_cons]
      omega
    rw [h1, h2]
    simp [hlive]

/-- C4: with an untripped circuit breaker that stays within threshold, an
empty pending list, and exactly `max_batch_size` messages queued in immediate
succession, the run produces exactly one flush: a single `batch_update`
envelope holding all the messages in submission order with
`batch_size = max_batch_size`; afterwards the pending list is empty and the
pending flush timer is cancelled. -/
theorem runQueue_cons_none {Msg : Type} {b b' : Broadcaster Msg} {m : Msg} {t : ℚ}
    (h : queueMessage b m t = (b', none)) (ms : List Msg) :
    runQueue b (m :: ms) t = runQueue b' ms t := by
  simp only [runQueue, List.foldl_cons, h, Option.toList_none, List.append_nil]

theorem runQueue_append {Msg : Type} (b : Broadcaster Msg) (ys zs : List Msg) (t : ℚ) :
    runQueue b (ys ++ zs) t =
      ((runQueue (runQueue b ys t).1 zs t).1,
       (runQueue b ys t).2 ++ (runQueue (runQueue b ys t).1 zs t).2) := by
  have h1 : runQueue b (ys ++ zs) t =
      zs.foldl
        (fun a m =>
          let r := queueMessage a.1 m t
          (r.1, a.2 ++ r.2.toList))
        (runQueue b ys t) := by
    simp only [runQueue, List.foldl_append]
  rw [h1]
  exact runQueue_go t zs (runQueue b ys t).1 (runQueue b ys t).2

/-- C4: with an untripped circuit breaker that stays within threshold, an
empty pending list, and exactly `max_batch_size` messages queued in immediate
succession, the run produces exactly one flush: a single `batch_update`
envelope holding all the messages in submission order with
`batch_size = max_batch_size`; afterwards the pending list is empty and the
pending flush timer is cancelled. -/
theorem c4_batch_fill_single_flush {Msg : Type} (b : Broadcaster Msg)
    (ms : List Msg) (t : ℚ)
    (hactive : b.rate_limit_active = false)
    (hpending : b.pending_messages = [])
    (hlen : ms.length = b.max_batch_size)
    (hpos : 1 ≤ b.max_batch_size)
    (htrip : ∀ j < ms.length,
      ¬ (((b.message_count : ℚ) + j) / cbDenom b t > b.circuit_breaker_threshold)) :
    runQueue b ms t =
      ({ b with pending_messages := [],
                message_count := b.message_count + ms.length,
                last_flush_time := t,
                flush_task_live := false },
       [⟨ms, t, b.max_batch_size⟩]) := by
  rcases List.eq_nil_or_concat ms with rfl | ⟨init, last, rfl⟩
  · rw [List.length_nil] at hlen
    omega
  simp only [List.concat_eq_append] at hlen htrip ⊢
  have hlen2 : init.length + 1 = b.max_batch_size := by
    simpa using hlen
  have hrate0 : ¬ ((b.message_count : ℚ) / cbDenom b t > b.circuit_breaker_threshold) := by
    have h0 := htrip 0 (by simp)
    simpa using h0
  cases init with
  | nil =>
    have hmax1 : b.max_batch_size = 1 := by simpa using hlen2.symm
    have hfull : b.max_batch_size ≤ b.pending_messages.length + 1 := by
      rw [hpending, hmax1]
      simp
    have hstep := queueMessage_flush (b := b) (m := last) (t := t) hactive hrate0 hfull
    simp only [List.nil_append, runQueue, List.foldl_cons, List.foldl_nil]
    rw [hstep]
    simp [hpending, hmax1]
  | cons m0 mid =>
    have hroom0 : b.pending_messages.length + 1 < b.max_batch_size := by
      rw [hpending]
      simp only [List.length_nil, Nat.zero_add]
      simp only [List.length_cons] at hlen2
      omega
    have hstep0 :
        queueMessage b m0 t =
          ({ b with pending_messages := b.pending_messages ++ [m0],
                    message_count := b.message_count + 1,
                    flush_task_live := true }, none) :=
      queueMessage_no_flush hactive hrate0 hroom0
    have hrun1 :
        runQueue b ((m0 :: mid) ++ [last]) t =
          runQueue
            { b with pending_messages := b.pending_messages ++ [m0],
                     message_count := b.message_count + 1,
                     flush_task_live := true } (mid ++ [last]) t := by
      rw [List.cons_append]
      exact runQueue_cons_none hstep0 (mid ++ [last])
    have hfill :
        runQueue
          { b with pending_messages := b.pending_messages ++ [m0],
                   message_count := b.message_count + 1,
                   flush_task_live := true } mid t =
          ({ b with pending_messages := (b.pending_messages ++ [m0]) ++ mid,
                    message_count := (b.message_count + 1) + mid.length,
                    flush_task_live := true }, []) := by
      refine runQueue_fill t mid _ hactive rfl ?_ ?_
      · intro j hj
        have h1 := htrip (j + 1) (by simp; omega)
        have hden :
            cbDenom
              { b with pending_messages := b.pending_messages ++ [m0],
                       message_count := b.message_count + 1,
                       flush_task_live := true } t = cbDenom b t := rfl
        rw [hden]
        convert h1 using 3
        push_cast
        ring
      · show (b.pending_messages ++ [m0]).length + mid.length < b.max_batch_size
        rw [List.length_append, hpending]
        simp only [List.length_cons] at hlen2
        simp only [List.length_nil, List.length_singleton]
        omega
    have hrate2 :
        ¬ ((((b.message_count + 1) + mid.length : ℕ) : ℚ) /
            cbDenom
              { b with pending_messages := (b.pending_messages ++ [m0]) ++ mid,
                       message_count := (b.message_count + 1) + mid.length,
                       flush_task_live := true } t >
            b.circuit_breaker_threshold) := by
      have h1 := htrip (mid.length + 1) (by simp)
      have hden :
          cbDenom
            { b with pending_messages := (b.pending_messages ++ [m0]) ++ mid,
                     message_count := (b.message_count + 1) + mid.length,
                     flush_task_live := true } t = cbDenom b t := rfl
      rw [hden]
      convert h1 using 3
      push_cast
      ring
    have hfull2 :
        b.max_batch_size ≤ ((b.pending_messages ++ [m0]) ++ mid).length + 1 := by
      rw [List.length_append, List.length_append, hpending]
      simp only [List.length_cons] at hlen2
      simp only [List.length_nil, List.length_singleton]
      omega
    have hstep2 :=
      queueMessage_flush
        (b := { b with pending_messages := (b.pending_messages ++ [m0]) ++ mid,
                       message_count := (b.message_count + 1) + mid.length,
                       flush_task_live := true })
        (m := last) (t := t) hactive hrate2 hfull2
    rw [hrun1, runQueue_append _ mid [last] t, hfill]
    simp only [runQueue, List.foldl_cons, List.foldl_nil, hstep2]
    simp only [hpending, List.nil_append, Option.toList_some, List.singleton_append,
      List.cons_append]
    have hc : b.message_count + 1 + mid.length + 1 =
        b.message_count + (m0 :: (mid ++ [last])).length := by
      simp only [List.length_cons, List.length_append, List.length_singleton,
        List.length_nil]
      omega
    rw [hc, hlen2]

/-- Concrete instance of `c4_batch_fill_single_flush`: three messages into a
fresh broadcaster with `max_batch_size = 3`. -/
theorem c4_batch_fill_single_flush_witness :
    runQueue
      { batch_interval := 1, max_batch_size := 3, pending_messages := ([] : List ℕ),
        flush_task_live := false, last_flush_time := 0, message_count := 0,
        rate_limit_active := false, circuit_breaker_threshold := 50,
        circuit_breaker_window := 10, circuit_breaker_recovery_time := 30 }
      [1, 2, 3] 0 =
      ({ batch_interval := 1, max_batch_size := 3, pending_messages := [],
         flush_task_live := false, last_flush_time := 0, message_count := 3,
         rate_limit_active := false, circuit_breaker_threshold := 50,
         circuit_breaker_window := 10, circuit_breaker_recovery_time := 30 },
       [⟨[1, 2, 3], 0, 3⟩]) :=
  c4_batch_fill_single_flush _ [1, 2, 3] 0 rfl rfl rfl (by decide)
    (by with_unfolding_all decide)

/-! ## C5: circuit breaker trip and recovery -/

/-- A tripped breaker recovers once more than the recovery time has elapsed
since the last flush (lines 140-143), and — with a nonnegative threshold —
the reset count of 0 cannot re-trip it in the same call. -/
theorem checkCB_recover {Msg : Type} {b : Broadcaster Msg} {t : ℚ}
    (hactive : b.rate_limit_active = true)
    (helapsed : t - b.last_flush_time > b.circuit_breaker_recovery_time)
    (hthr : 0 ≤ b.circuit_breaker_threshold) :
    checkCircuitBreaker b t =
      ({ b with rate_limit_active := false, message_count := 0 }, false) := by
  unfold checkCircuitBreaker
  simp only [hactive, eq_self_iff_true, true_and]
  rw [if_pos helapsed]
  simp only [Nat.cast_zero, zero_div, Bool.false_eq_true, not_false_eq_true,
    true_and]
  rw [if_neg (not_lt.mpr hthr)]

/-- `queue_message` after any breaker check that returns untripped, when the
batch does not fill. -/
theorem queueMessage_after_check {Msg : Type} {b b1 : Broadcaster Msg} {m : Msg}
    {t : ℚ} (hcb : checkCircuitBreaker b t = (b1, false))
    (hroom : b1.pending_messages.length + 1 < b1.max_batch_size) :
    queueMessage b m t =
      ({ b1 with pending_messages := b1.pending_messages ++ [m],
                 message_count := b1.message_count + 1,
                 flush_task_live := true }, none) := by
  unfold queueMessage
  rw [hcb]
  simp only [Bool.false_eq_true, if_false]
  cases hfl : b1.flush_task_live with
  | false =>
    simp only [hfl, Bool.false_eq_true, if_false]
    rw [if_neg (by simp; omega)]
  | true =>
    simp only [hfl, if_true]
    rw [if_neg (by simp; omega)]

/-- C5: (trip) whenever the breaker is untripped and `messageCount` divided
by `min(max(now - lastFlushTime, 1), window)` exceeds the threshold, the next
`queueMessage` call drops its message — pending list and lifetime counter
unchanged, only the breaker flag flips — and `getStats` then reports
`circuit_breaker_active = true`; (recovery) on the first call made more than
`recoveryTime` after `lastFlushTime` while tripped, the breaker untrips,
`messageCount` resets to 0, and that message is queued normally. -/
theorem c5_circuit_breaker_trip_and_recovery :
    (∀ (Msg : Type) (b : Broadcaster Msg) (m : Msg) (t : ℚ),
      b.rate_limit_active = false →
      0 ≤ t - b.last_flush_time →
      0 < b.circuit_breaker_window →
      (b.message_count : ℚ) /
          min (max (t - b.last_flush_time) 1) b.circuit_breaker_window >
        b.circuit_breaker_threshold →
      queueMessage b m t = ({ b with rate_limit_active := true }, none) ∧
        (getStats (queueMessage b m t).1 t).circuit_breaker_active = true) ∧
    (∀ (Msg : Type) (b : Broadcaster Msg) (m : Msg) (t : ℚ),
      b.rate_limit_active = true →
      t - b.last_flush_time > b.circuit_breaker_recovery_time →
      0 ≤ b.circuit_breaker_threshold →
      b.pending_messages.length + 1 < b.max_batch_size →
      queueMessage b m t =
        ({ b with pending_messages := b.pending_messages ++ [m],
                  flush_task_live := true,
                  message_count := 1,
                  rate_limit_active := false }, none)) := by
  constructor
  · intro Msg b m t hactive helapsed hwin hrate
    have hdenpos : 0 < cbDenom b t := by
      unfold cbDenom
      rcases eq_or_lt_of_le helapsed with he | he
      · rw [if_pos he.symm]
        exact lt_min one_pos hwin
      · rw [if_neg (by exact ne_of_gt he)]
        exact lt_min he hwin
    have hdenle : cbDenom b t ≤ min (max (t - b.last_flush_time) 1) b.circuit_breaker_window := by
      unfold cbDenom
      apply min_le_min _ le_rfl
      rcases eq_or_lt_of_le helapsed with he | he
      · rw [if_pos he.symm]
        exact le_max_right _ _
      · rw [if_neg (by exact ne_of_gt he)]
        exact le_max_left _ _
    have hrate_code :
        (b.message_count : ℚ) / cbDenom b t > b.circuit_breaker_threshold :=
      lt_of_lt_of_le hrate
        (div_le_div_of_nonneg_left (by positivity) hdenpos hdenle)
    have hcb : checkCircuitBreaker b t = ({ b with rate_limit_active := true }, true) := by
      unfold checkCircuitBreaker
      simp only [hactive, Bool.false_eq_true, false_and, if_false,
        not_false_eq_true, true_and]
      rw [if_pos hrate_code]
    have hq : queueMessage b m t = ({ b with rate_limit_active := true }, none) := by
      unfold queueMessage
      rw [hcb]
      rfl
    refine ⟨hq, ?_⟩
    rw [hq]
    rfl

  · intro Msg b m t hactive helapsed hthr hroom
    have hcb := checkCB_recover hactive helapsed hthr
    have h := queueMessage_after_check (m := m) hcb (by simpa using hroom)
    rw [h]

/-- Concrete instance of `c5_circuit_breaker_trip_and_recovery`: both the
trip and the recovery behaviour at explicit states. -/
theorem c5_circuit_breaker_trip_and_recovery_witness :
    (queueMessage
        { batch_interval := 1, max_batch_size := 3, pending_messages := ([] : List ℕ),
          flush_task_live := false, last_flush_time := 0, message_count := 100,
          rate_limit_active := false, circuit_breaker_threshold := 50,
          circuit_breaker_window := 10, circuit_breaker_recovery_time := 30 } 5 1 =
      ({ batch_interval := 1, max_batch_size := 3, pending_messages := [],
         flush_task_live := false, last_flush_time := 0, message_count := 100,
         rate_limit_active := true, circuit_breaker_threshold := 50,
         circuit_breaker_window := 10, circuit_breaker_recovery_time := 30 }, none)) ∧
    (queueMessage
        { batch_interval := 1, max_batch_size := 3, pending_messages := ([] : List ℕ),
          flush_task_live := false, last_flush_time := 0, message_count := 100,
          rate_limit_active := true, circuit_breaker_threshold := 50,
          circuit_breaker_window := 10, circuit_breaker_recovery_time := 30 } 5 100 =
      ({ batch_interval := 1, max_batch_size := 3, pending_messages := [5],
         flush_task_live := true, last_flush_time := 0, message_count := 1,
         rate_limit_active := false, circuit_breaker_threshold := 50,
         circuit_breaker_window := 10, circuit_breaker_recovery_time := 30 }, none)) :=
  ⟨(c5_circuit_breaker_trip_and_recovery.1 ℕ _ 5 1 rfl
      (by with_unfolding_all decide) (by decide)
      (by with_unfolding_all decide)).1,
   c5_circuit_breaker_trip_and_recovery.2 ℕ _ 5 100 rfl
      (by with_unfolding_all decide) (by decide) (by decide)⟩

/-! ## Monitor scenario lemmas -/

/-- The check scheduled through `timeForLag` measures exactly the target
lag. -/
theorem measuredLag (m : Monitor) (lag : ℚ) :
    (timeForLag m lag - (m.last_check + m.check_interval)) * 1000 = lag := by
  unfold timeForLag
  ring

/-- A moderate-lag check (above `max_lag_ms`, not above the severe
threshold) while degradation is inactive: every callback fires once with
`("standard", lag)` and the flag is set. -/
theorem checkLag_standard (m : Monitor) (lag : ℚ)
    (hactive : m.degradation_active = false)
    (h1 : m.max_lag_ms < lag) (h2 : lag ≤ m.severe_lag_threshold) :
    checkEventLoopLag m (timeForLag m lag) =
      ({ m with lag_measurements := newMeasurements m (timeForLag m lag) lag,
                degradation_active := true,
                last_check := timeForLag m lag },
       m.degradation_callbacks.map (fun c => ⟨c, .standard, lag⟩)) := by
  simp only [checkEventLoopLag, measuredLag]
  rw [if_pos h1, if_neg (not_lt.mpr h2)]
  unfold triggerDegradation
  rw [if_neg (by simp [hactive])]

/-- A severe-lag check that does not yet reach the emergency count: the
severe counter increments and no callback fires. -/
theorem checkLag_severe_inc (m : Monitor) (lag : ℚ)
    (h1 : m.max_lag_ms < lag) (h2 : m.severe_lag_threshold < lag)
    (h3 : m.severe_lag_count + 1 < m.max_severe_lag_count) :
    checkEventLoopLag m (timeForLag m lag) =
      ({ m with lag_measurements := newMeasurements m (timeForLag m lag) lag,
                severe_lag_count := m.severe_lag_count + 1,
                last_check := timeForLag m lag },
       []) := by
  simp only [checkEventLoopLag, measuredLag]
  rw [if_pos h1, if_pos h2, if_neg (by simp; omega)]

/-- A severe-lag check that reaches the emergency count: every callback
fires once with `("emergency", lag)` and the severe counter resets to 0;
`degradation_active` is untouched. -/
theorem checkLag_severe_emergency (m : Monitor) (lag : ℚ)
    (h1 : m.max_lag_ms < lag) (h2 : m.severe_lag_threshold < lag)
    (h3 : m.max_severe_lag_count ≤ m.severe_lag_count + 1) :
    checkEventLoopLag m (timeForLag m lag) =
      ({ m with lag_measurements := newMeasurements m (timeForLag m lag) lag,
                severe_lag_count := 0,
                last_check := timeForLag m lag },
       m.degradation_callbacks.map (fun c => ⟨c, .emergency, lag⟩)) := by
  simp only [checkEventLoopLag, measuredLag]
  rw [if_pos h1, if_pos h2, if_pos (by simp; omega)]
  unfold triggerEmergencyDegradation
  rfl

/-- The `if count > 0 then max(0, count-1)` decrement of line 124-125 is
truncated subtraction. -/
theorem decrement_eq (n : ℕ) : (if n > 0 then n - 1 else n) = n - 1 := by
  split <;> omega

/-- A within-threshold check while degradation is active with the lag below
half the threshold (hysteresis): every callback fires once with
`("recovery", 0)` and the flag clears; the severe counter decrements. -/
theorem checkLag_recovery (m : Monitor) (lag : ℚ)
    (hactive : m.degradation_active = true)
    (h1 : lag ≤ m.max_lag_ms) (h2 : lag < m.max_lag_ms / 2) :
    checkEventLoopLag m (timeForLag m lag) =
      ({ m with lag_measurements := newMeasurements m (timeForLag m lag) lag,
                severe_lag_count := m.severe_lag_count - 1,
                degradation_active := false,
                last_check := timeForLag m lag },
       m.degradation_callbacks.map (fun c => ⟨c, .recovery, 0⟩)) := by
  simp only [checkEventLoopLag, measuredLag]
  rw [if_neg (not_lt.mpr h1)]
  by_cases hc : m.severe_lag_count > 0
  · rw [if_pos hc, if_pos (by exact ⟨hactive, h2⟩)]
    unfold recoverFromDegradation
    rw [if_pos (by exact hactive)]
  · rw [if_neg hc, if_pos (by exact ⟨hactive, h2⟩)]
    unfold recoverFromDegradation
    rw [if_pos (by exact hactive)]
    have hzero : m.severe_lag_count = 0 := by omega
    simp [hzero]

/-- A within-threshold check that does not recover (degradation inactive, or
the lag in the hysteresis band): no callback fires and the severe counter
decrements. -/
theorem checkLag_clean_quiet (m : Monitor) (lag : ℚ)
    (h1 : lag ≤ m.max_lag_ms)
    (h2 : ¬ (m.degradation_active = true ∧ lag < m.max_lag_ms / 2)) :
    checkEventLoopLag m (timeForLag m lag) =
      ({ m with lag_measurements := newMeasurements m (timeForLag m lag) lag,
                severe_lag_count := m.severe_lag_count - 1,
                last_check := timeForLag m lag },
       []) := by
  simp only [checkEventLoopLag, measuredLag]
  rw [if_neg (not_lt.mpr h1)]
  by_cases hc : m.severe_lag_count > 0
  · rw [if_pos hc, if_neg (by simpa using h2)]
  · rw [if_neg hc, if_neg (by simpa using h2)]
    have hzero : m.severe_lag_count = 0 := by omega
    simp [hzero]

/-- A moderate-lag check while degradation is already active: the re-entrant
`trigger_degradation` call is suppressed and no callback fires. -/
theorem checkLag_standard_suppressed (m : Monitor) (lag : ℚ)
    (hactive : m.degradation_active = true)
    (h1 : m.max_lag_ms < lag) (h2 : lag ≤ m.severe_lag_threshold) :
    checkEventLoopLag m (timeForLag m lag) =
      ({ m with lag_measurements := newMeasurements m (timeForLag m lag) lag,
                last_check := timeForLag m lag },
       []) := by
  simp only [checkEventLoopLag, measuredLag]
  rw [if_pos h1, if_neg (not_lt.mpr h2)]
  unfold triggerDegradation
  rw [if_pos (by exact hactive)]

/-- While degradation is active, no check — whatever its measured lag — ever
emits a `"standard"` callback invocation. -/
theorem check_no_standard_of_active (m : Monitor) (t : ℚ)
    (hactive : m.degradation_active = true) :
    ∀ e ∈ (checkEventLoopLag m t).2, e.level ≠ DegLevel.standard := by
  intro e he
  have ht : t = timeForLag m ((t - (m.last_check + m.check_interval)) * 1000) := by
    unfold timeForLag
    ring
  set lag := (t - (m.last_check + m.check_interval)) * 1000 with hlag
  rw [ht] at he
  rcases le_or_lt lag m.max_lag_ms with hle | hgt
  · by_cases hrec : lag < m.max_lag_ms / 2
    · rw [checkLag_recovery m lag hactive hle hrec] at he
      simp only [List.mem_map] at he
      obtain ⟨c, -, rfl⟩ := he
      simp
    · rw [checkLag_clean_quiet m lag hle (by simp [hrec])] at he
      simp at he
  · rcases le_or_lt lag m.severe_lag_threshold with hsev | hsev
    · rw [checkLag_standard_suppressed m lag hactive hgt hsev] at he
      simp at he
    · by_cases h3 : m.severe_lag_count + 1 < m.max_severe_lag_count
      · rw [checkLag_severe_inc m lag hgt hsev h3] at he
        simp at he
      · rw [checkLag_severe_emergency m lag hgt hsev (by omega)] at he
        simp only [List.mem_map] at he
        obtain ⟨c, -, rfl⟩ := he
        simp

/-- C6: (fire-once) a check measuring lag strictly above `maxLagMs` but not
above the severe threshold, while degradation is inactive, invokes every
callback once with `("standard", lag)` and sets `degradationActive`; (suppression)
while `degradationActive` holds no check emits a `"standard"` invocation;
(recovery) a check with lag below `maxLagMs / 2` while active invokes every
callback once with `("recovery", 0)` and clears the flag; (hysteresis) a
check with `maxLagMs / 2 ≤ lag ≤ maxLagMs` invokes no callback. -/
theorem c6_standard_degradation_hysteresis :
    (∀ (m : Monitor) (lag : ℚ),
      m.degradation_active = false →
      m.max_lag_ms < lag → lag ≤ m.severe_lag_threshold →
      (checkEventLoopLag m (timeForLag m lag)).2 =
          m.degradation_callbacks.map (fun c => ⟨c, .standard, lag⟩) ∧
        (checkEventLoopLag m (timeForLag m lag)).1.degradation_active = true) ∧
    (∀ (m : Monitor) (t : ℚ),
      m.degradation_active = true →
      ∀ e ∈ (checkEventLoopLag m t).2, e.level ≠ DegLevel.standard) ∧
    (∀ (m : Monitor) (lag : ℚ),
      m.degradation_active = true →
      0 < m.max_lag_ms → lag < m.max_lag_ms / 2 →
      (checkEventLoopLag m (timeForLag m lag)).2 =
          m.degradation_callbacks.map (fun c => ⟨c, .recovery, 0⟩) ∧
        (checkEventLoopLag m (timeForLag m lag)).1.degradation_active = false) ∧
    (∀ (m : Monitor) (lag : ℚ),
      m.max_lag_ms / 2 ≤ lag → lag ≤ m.max_lag_ms →
      (checkEventLoopLag m (timeForLag m lag)).2 = []) := by
  refine ⟨?_, check_no_standard_of_active, ?_, ?_⟩
  · intro m lag hactive h1 h2
    rw [checkLag_standard m lag hactive h1 h2]
    exact ⟨rfl, rfl⟩
  · intro m lag hactive hpos h2
    have h1 : lag ≤ m.max_lag_ms := by
      have : m.max_lag_ms / 2 ≤ m.max_lag_ms := by linarith
      linarith
    rw [checkLag_recovery m lag hactive h1 h2]
    exact ⟨rfl, rfl⟩
  · intro m lag hge hle
    rw [checkLag_clean_quiet m lag hle
      (by rintro ⟨-, hlt⟩; exact absurd hlt (not_lt.mpr hge))]

/-- Concrete instance of `c6_standard_degradation_hysteresis`: the fire-once,
recovery and hysteresis behaviours at an explicit monitor. -/
theorem c6_standard_degradation_hysteresis_witness :
    ((checkEventLoopLag
        { max_lag_ms := 10, check_interval := 1, last_check := 0,
          lag_measurements := [], max_measurements := 100,
          degradation_active := false, degradation_callbacks := [0],
          severe_lag_threshold := 30, severe_lag_count := 0,
          max_severe_lag_count := 5 }
        (timeForLag
          { max_lag_ms := 10, check_interval := 1, last_check := 0,
            lag_measurements := [], max_measurements := 100,
            degradation_active := false, degradation_callbacks := [0],
            severe_lag_threshold := 30, severe_lag_count := 0,
            max_severe_lag_count := 5 } 15)).2 =
      [⟨0, DegLevel.standard, 15⟩]) ∧
    ((checkEventLoopLag
        { max_lag_ms := 10, check_interval := 1, last_check := 0,
          lag_measurements := [], max_measurements := 100,
          degradation_active := true, degradation_callbacks := [0],
          severe_lag_threshold := 30, severe_lag_count := 0,
          max_severe_lag_count := 5 }
        (timeForLag
          { max_lag_ms := 10, check_interval := 1, last_check := 0,
            lag_measurements := [], max_measurements := 100,
            degradation_active := true, degradation_callbacks := [0],
            severe_lag_threshold := 30, severe_lag_count := 0,
            max_severe_lag_count := 5 } 2)).2 =
      [⟨0, DegLevel.recovery, 0⟩]) ∧
    ((checkEventLoopLag
        { max_lag_ms := 10, check_interval := 1, last_check := 0,
          lag_measurements := [], max_measurements := 100,
          degradation_active := true, degradation_callbacks := [0],
          severe_lag_threshold := 30, severe_lag_count := 0,
          max_severe_lag_count := 5 }
        (timeForLag
          { max_lag_ms := 10, check_interval := 1, last_check := 0,
            lag_measurements := [], max_measurements := 100,
            degradation_active := true, degradation_callbacks := [0],
            severe_lag_threshold := 30, severe_lag_count := 0,
            max_severe_lag_count := 5 } 7)).2 = []) :=
  ⟨(c6_standard_degradation_hysteresis.1 _ 15 rfl (by decide) (by decide)).1,
   (c6_standard_degradation_hysteresis.2.2.1 _ 2 rfl (by decide)
     (by with_unfolding_all decide)).1,
   c6_standard_degradation_hysteresis.2.2.2 _ 7
     (by with_unfolding_all decide) (by decide)⟩

/-! ## C7: emergency path -/

theorem getLastD_irrel {α : Type} (l : List α) (h : l ≠ []) (a b : α) :
    l.getLastD a = l.getLastD b := by
  cases l with
  | nil => exact absurd rfl h
  | cons x xs => rw [List.getLastD_cons, List.getLastD_cons]

/-- Unfolding `runChecksByLag` one check at a time. -/
theorem runChecksByLag_go :
    ∀ (lags : List ℚ) (m : Monitor) (acc : List DegEvent),
    lags.foldl
      (fun a lag =>
        let r := checkEventLoopLag a.1 (timeForLag a.1 lag)
        (r.1, a.2 ++ r.2)) (m, acc)
      = ((runChecksByLag m lags).1, acc ++ (runChecksByLag m lags).2) := by
  intro lags
  induction lags with
  | nil => intro m acc; simp [runChecksByLag]
  | cons lag rest ih =>
    intro m acc
    simp only [runChecksByLag, List.foldl_cons]
    rw [ih, ih]
    simp

/-- A maximal run of consecutive severe checks: nothing fires until the
count reaches the maximum, at which point every callback receives one
`("emergency", lag)` with the final lag, and the counter resets. -/
theorem runSevere_aux :
    ∀ (lags : List ℚ) (m : Monitor),
    (∀ l ∈ lags, m.severe_lag_threshold < l) →
    m.max_lag_ms ≤ m.severe_lag_threshold →
    lags ≠ [] →
    m.severe_lag_count + lags.length = m.max_severe_lag_count →
    (runChecksByLag m lags).2 =
        m.degradation_callbacks.map (fun c => ⟨c, .emergency, lags.getLastD 0⟩) ∧
      (runChecksByLag m lags).1.severe_lag_count = 0 := by
  intro lags
  induction lags with
  | nil => intro m _ _ hne _; exact absurd rfl hne
  | cons l rest ih =>
    intro m hsev hthr _ hcount
    have hsl : m.severe_lag_threshold < l := hsev l (by simp)
    have hml : m.max_lag_ms < l := lt_of_le_of_lt hthr hsl
    cases rest with
    | nil =>
      have h3 : m.max_severe_lag_count ≤ m.severe_lag_count + 1 := by
        simp at hcount
        omega
      have hstep := checkLag_severe_emergency m l hml hsl h3
      simp only [runChecksByLag, List.foldl_cons, List.foldl_nil, hstep]
      simp [List.getLastD_cons]
    | cons r rs =>
      have h3 : m.severe_lag_count + 1 < m.max_severe_lag_count := by
        simp at hcount
        omega
      have hstep := checkLag_severe_inc m l hml hsl h3
      have hrun : runChecksByLag m (l :: r :: rs) =
          runChecksByLag
            { m with
                lag_measurements := newMeasurements m (timeForLag m l) l,
                severe_lag_count := m.severe_lag_count + 1,
                last_check := timeForLag m l } (r :: rs) := by
        simp only [runChecksByLag, List.foldl_cons, hstep]
        rw [runChecksByLag_go, runChecksByLag_go]
        simp [runChecksByLag]
      rw [hrun]
      have hres := ih
        { m with
            lag_measurements := newMeasurements m (timeForLag m l) l,
            severe_lag_count := m.severe_lag_count + 1,
            last_check := timeForLag m l }
        (fun x hx => hsev x (by simp [hx])) hthr (by simp)
        (by simp; simp at hcount; omega)
      refine ⟨?_, hres.2⟩
      rw [hres.1]
      have hlast : (l :: r :: rs).getLastD (0 : ℚ) = (r :: rs).getLastD 0 := by
        rw [List.getLastD_cons]
        exact getLastD_irrel (r :: rs) (by simp) l 0
      rw [hlast]

/-- C7: starting from `severeLagCount = 0`, a run of `maxSevereLagCount`
consecutive severe checks invokes every callback with `("emergency", lag)`
exactly once — on the final check, with its lag — and leaves the counter at
0; and every within-threshold check instead decrements the counter by 1,
floored at 0. -/
theorem c7_emergency_consecutive_severe :
    (∀ (m : Monitor) (lags : List ℚ),
      m.severe_lag_count = 0 →
      lags.length = m.max_severe_lag_count →
      1 ≤ m.max_severe_lag_count →
      (∀ l ∈ lags, m.severe_lag_threshold < l) →
      m.max_lag_ms ≤ m.severe_lag_threshold →
      (runChecksByLag m lags).2 =
          m.degradation_callbacks.map (fun c => ⟨c, .emergency, lags.getLastD 0⟩) ∧
        (runChecksByLag m lags).1.severe_lag_count = 0) ∧
    (∀ (m : Monitor) (lag : ℚ),
      lag ≤ m.max_lag_ms →
      (checkEventLoopLag m (timeForLag m lag)).1.severe_lag_count =
        m.severe_lag_count - 1) := by
  constructor
  · intro m lags hzero hlen hpos hsev hthr
    refine runSevere_aux lags m hsev hthr ?_ ?_
    · intro h
      rw [h] at hlen
      simp at hlen
      omega
    · omega
  · intro m lag hle
    by_cases hrec : m.degradation_active = true ∧ lag < m.max_lag_ms / 2
    · rw [checkLag_recovery m lag hrec.1 hle hrec.2]
    · rw [checkLag_clean_quiet m lag hle hrec]

/-- Concrete instance of `c7_emergency_consecutive_severe`: two consecutive
severe checks with `maxSevereLagCount = 2`, then a clean-check decrement. -/
theorem c7_emergency_consecutive_severe_witness :
    ((runChecksByLag
        { max_lag_ms := 10, check_interval := 1, last_check := 0,
          lag_measurements := [], max_measurements := 100,
          degradation_active := false, degradation_callbacks := [0],
          severe_lag_threshold := 30, severe_lag_count := 0,
          max_severe_lag_count := 2 } [40, 50]).2 =
        [⟨0, DegLevel.emergency, 50⟩] ∧
      (runChecksByLag
        { max_lag_ms := 10, check_interval := 1, last_check := 0,
          lag_measurements := [], max_measurements := 100,
          degradation_active := false, degradation_callbacks := [0],
          severe_lag_threshold := 30, severe_lag_count := 0,
          max_severe_lag_count := 2 } [40, 50]).1.severe_lag_count = 0) ∧
    (checkEventLoopLag
        { max_lag_ms := 10, check_interval := 1, last_check := 0,
          lag_measurements := [], max_measurements := 100,
          degradation_active := false, degradation_callbacks := [0],
          severe_lag_threshold := 30, severe_lag_count := 3,
          max_severe_lag_count := 5 }
        (timeForLag
          { max_lag_ms := 10, check_interval := 1, last_check := 0,
            lag_measurements := [], max_measurements := 100,
            degradation_active := false, degradation_callbacks := [0],
            severe_lag_threshold := 30, severe_lag_count := 3,
            max_severe_lag_count := 5 } 5)).1.severe_lag_count = 2 :=
  ⟨c7_emergency_consecutive_severe.1 _ [40, 50] rfl rfl (by decide)
      (by decide) (by decide),
   c7_emergency_consecutive_severe.2 _ 5 (by decide)⟩

/-! ## C10: emergency versus recovery -/

/-- A check never changes the registered callback list. -/
theorem check_callbacks_frame (m : Monitor) (t : ℚ) :
    (checkEventLoopLag m t).1.degradation_callbacks = m.degradation_callbacks := by
  simp only [checkEventLoopLag, triggerDegradation, triggerEmergencyDegradation,
    recoverFromDegradation]
  split_ifs <;> rfl

/-- With no registered callbacks, a check emits no events. -/
theorem check_events_nil (m : Monitor) (t : ℚ)
    (hcb : m.degradation_callbacks = []) :
    (checkEventLoopLag m t).2 = [] := by
  simp only [checkEventLoopLag, triggerDegradation, triggerEmergencyDegradation,
    recoverFromDegradation]
  split_ifs <;> simp [hcb]

/-- A `"recovery"` event can only be emitted by a check that starts with
`degradation_active` set. -/
theorem check_recovery_requires_active (m : Monitor) (t : ℚ) (e : DegEvent)
    (he : e ∈ (checkEventLoopLag m t).2) (hlev : e.level = DegLevel.recovery) :
    m.degradation_active = true := by
  by_contra h
  have hact : m.degradation_active = false := by
    cases hma : m.degradation_active
    · rfl
    · exact absurd hma h
  have ht : t = timeForLag m ((t - (m.last_check + m.check_interval)) * 1000) := by
    unfold timeForLag
    ring
  set lag := (t - (m.last_check + m.check_interval)) * 1000 with hlag
  rw [ht] at he
  rcases le_or_lt lag m.max_lag_ms with hle | hgt
  · rw [checkLag_clean_quiet m lag hle
      (by rintro ⟨ha, -⟩; rw [hact] at ha; exact Bool.false_ne_true ha)] at he
    simp at he
  · rcases le_or_lt lag m.severe_lag_threshold with hsev | hsev
    · rw [checkLag_standard m lag hact hgt hsev] at he
      simp only [List.mem_map] at he
      obtain ⟨c, -, rfl⟩ := he
      simp at hlev
    · by_cases h3 : m.severe_lag_count + 1 < m.max_severe_lag_count
      · rw [checkLag_severe_inc m lag hgt hsev h3] at he
        simp at he
      · rw [checkLag_severe_emergency m lag hgt hsev (by omega)] at he
        simp only [List.mem_map] at he
        obtain ⟨c, -, rfl⟩ := he
        simp at hlev

/-- One check preserves the "no recovery without a prior standard event"
invariant: if degradation is inactive (or no callback is registered) and the
check emits no `"standard"` event, it emits no `"recovery"` event either and
the invariant still holds afterwards. -/
theorem c10_step (m : Monitor) (t : ℚ)
    (hI : m.degradation_active = false ∨ m.degradation_callbacks = [])
    (hns : ∀ e ∈ (checkEventLoopLag m t).2, e.level ≠ DegLevel.standard) :
    (∀ e ∈ (checkEventLoopLag m t).2, e.level ≠ DegLevel.recovery) ∧
      ((checkEventLoopLag m t).1.degradation_active = false ∨
        (checkEventLoopLag m t).1.degradation_callbacks = []) := by
  rcases hI with hact | hcb
  · have ht : t = timeForLag m ((t - (m.last_check + m.check_interval)) * 1000) := by
      unfold timeForLag
      ring
    set lag := (t - (m.last_check + m.check_interval)) * 1000 with hlag
    rw [ht] at hns ⊢
    rcases le_or_lt lag m.max_lag_ms with hle | hgt
    · rw [checkLag_clean_quiet m lag hle
        (by rintro ⟨ha, -⟩; rw [hact] at ha; exact Bool.false_ne_true ha)]
      exact ⟨by simp, Or.inl hact⟩
    · rcases le_or_lt lag m.severe_lag_threshold with hsev | hsev
      · by_cases hcb2 : m.degradation_callbacks = []
        · rw [checkLag_standard m lag hact hgt hsev]
          constructor
          · intro e he
            rw [hcb2] at he
            simp at he
          · exact Or.inr hcb2
        · exfalso
          obtain ⟨c, hc⟩ := List.exists_mem_of_ne_nil m.degradation_callbacks hcb2
          have hmem : (⟨c, DegLevel.standard, lag⟩ : DegEvent) ∈
              (checkEventLoopLag m (timeForLag m lag)).2 := by
            rw [checkLag_standard m lag hact hgt hsev]
            exact List.mem_map_of_mem _ hc
          exact hns _ hmem rfl
      · by_cases h3 : m.severe_lag_count + 1 < m.max_severe_lag_count
        · rw [checkLag_severe_inc m lag hgt hsev h3]
          exact ⟨by simp, Or.inl hact⟩
        · rw [checkLag_severe_emergency m lag hgt hsev (by omega)]
          constructor
          · intro e he
            simp only [List.mem_map] at he
            obtain ⟨c, -, rfl⟩ := he
            simp
          · exact Or.inl hact
  · constructor
    · intro e he
      rw [check_events_nil m t hcb] at he
      simp at he
    · right
      rw [check_callbacks_frame m t]
      exact hcb

/-- Unfolding `runChecks` one check at a time. -/
theorem runChecks_go :
    ∀ (ts : List ℚ) (m : Monitor) (acc : List DegEvent),
    ts.foldl
      (fun a t =>
        let r := checkEventLoopLag a.1 t
        (r.1, a.2 ++ r.2)) (m, acc)
      = ((runChecks m ts).1, acc ++ (runChecks m ts).2) := by
  intro ts
  induction ts with
  | nil => intro m acc; simp [runChecks]
  | cons t rest ih =>
    intro m acc
    simp only [runChecks, List.foldl_cons]
    rw [ih, ih]
    simp

theorem runChecks_cons (m : Monitor) (t : ℚ) (rest : List ℚ) :
    runChecks m (t :: rest) =
      ((runChecks (checkEventLoopLag m t).1 rest).1,
       (checkEventLoopLag m t).2 ++ (runChecks (checkEventLoopLag m t).1 rest).2) := by
  simp only [runChecks, List.foldl_cons]
  rw [runChecks_go]
  simp [runChecks]

/-- In a run that emits no `"standard"` event, starting with degradation
inactive, no `"recovery"` event is ever emitted. -/
theorem run_no_recovery :
    ∀ (ts : List ℚ) (m : Monitor),
    m.degradation_active = false ∨ m.degradation_callbacks = [] →
    (∀ e ∈ (runChecks m ts).2, e.level ≠ DegLevel.standard) →
    ∀ e ∈ (runChecks m ts).2, e.level ≠ DegLevel.recovery := by
  intro ts
  induction ts with
  | nil =>
    intro m _ _ e he
    simp [runChecks] at he
  | cons t rest ih =>
    intro m hI hns e he
    rw [runChecks_cons] at hns he
    simp only [List.mem_append] at hns he
    have hns1 : ∀ e ∈ (checkEventLoopLag m t).2, e.level ≠ DegLevel.standard :=
      fun e' he' => hns e' (Or.inl he')
    have hns2 : ∀ e ∈ (runChecks (checkEventLoopLag m t).1 rest).2,
        e.level ≠ DegLevel.standard :=
      fun e' he' => hns e' (Or.inr he')
    obtain ⟨hnr1, hI'⟩ := c10_step m t hI hns1
    rcases he with he | he
    · exact hnr1 e he
    · exact ih (checkEventLoopLag m t).1 hI' hns2 e he

/-- C10 (amended): the emergency path never changes `degradationActive`, and
a `"recovery"` callback fires only from a check that starts with
`degradationActive` true; consequently, in any run that begins with
degradation inactive — e.g. right after an emergency fired without a standard
degradation active — no check invokes a `"recovery"` callback until some
check first emits a `"standard"` event. -/
theorem c10_emergency_recovery_amended :
    (∀ (m : Monitor) (lag : ℚ),
      (triggerEmergencyDegradation m lag).1.degradation_active =
        m.degradation_active) ∧
    (∀ (m : Monitor) (t : ℚ) (e : DegEvent),
      e ∈ (checkEventLoopLag m t).2 → e.level = DegLevel.recovery →
      m.degradation_active = true) ∧
    (∀ (m : Monitor) (ts : List ℚ),
      m.degradation_active = false →
      (∀ e ∈ (runChecks m ts).2, e.level ≠ DegLevel.standard) →
      ∀ e ∈ (runChecks m ts).2, e.level ≠ DegLevel.recovery) :=
  ⟨fun _ _ => rfl,
   check_recovery_requires_active,
   fun m ts hact => run_no_recovery ts m (Or.inl hact)⟩

/-- The monitor of the C10 run: one registered callback, emergency after a
single severe check. -/
def c10_m0 : Monitor :=
  { max_lag_ms := 10, check_interval := 1, last_check := 0,
    lag_measurements := [], max_measurements := 100,
    degradation_active := false, degradation_callbacks := [0],
    severe_lag_threshold := 30, severe_lag_count := 0,
    max_severe_lag_count := 1 }

/-- State after the severe check (lag 40 ms): the emergency fired. -/
def c10_m1 : Monitor := (checkEventLoopLag c10_m0 (timeForLag c10_m0 40)).1

/-- State after a subsequent moderate check (lag 15 ms): standard
degradation activated. -/
def c10_m2 : Monitor := (checkEventLoopLag c10_m1 (timeForLag c10_m1 15)).1

/-- C10 counterexample: an execution in which the emergency fires while
standard degradation is inactive, and a later within-threshold check (lag
2 ms ≤ maxLagMs) does invoke the `"recovery"` callback — the emergency event
is followed by a recovery event, contradicting the claim. -/
theorem c10_counterexample :
    c10_m0.degradation_active = false ∧
    (checkEventLoopLag c10_m0 (timeForLag c10_m0 40)).2 =
      [⟨0, DegLevel.emergency, 40⟩] ∧
    (2 : ℚ) ≤ c10_m2.max_lag_ms ∧
    (checkEventLoopLag c10_m2 (timeForLag c10_m2 2)).2 =
      [⟨0, DegLevel.recovery, 0⟩] := by
  refine ⟨rfl, ?_, ?_, ?_⟩ <;> with_unfolding_all decide

/-- Concrete instance of `c10_emergency_recovery_amended`: the emergency
trigger leaves the flag unchanged, and the recovery that does fire in the
counterexample run happened from a state with `degradationActive` true. -/
theorem c10_emergency_recovery_amended_witness :
    (triggerEmergencyDegradation c10_m0 40).1.degradation_active = false ∧
    c10_m2.degradation_active = true :=
  ⟨(c10_emergency_recovery_amended.1 c10_m0 40).trans rfl,
   c10_emergency_recovery_amended.2.1 c10_m2 (timeForLag c10_m2 2)
     ⟨0, DegLevel.recovery, 0⟩ (by with_unfolding_all decide) rfl⟩

/-! ## C8: age-based cleanup -/

/-- The parsed timestamp with default 0, for stating chronological order
decidably. -/
def ptimeD (parse : String → Option ℚ) (e : StoredEntry) : ℚ :=
  (parse e.timestamp).getD 0

/-- The timestamp parser of the C8 scenario. -/
def c8_parse : String → Option ℚ := fun s =>
  if s = "tnew" then some 1000 else if s = "told" then some 0 else none

/-- The C8 start store: one subscriber, age window 100 seconds. -/
def c8_s0 : Store :=
  { max_entries := 10, max_age_seconds := 100, entries := [], subscribers := [0],
    recent_hashes := [], session_start_time := 0, last_cleanup_time := 0 }

/-- The C8 store after two `addEntry` calls whose timestamps arrived out of
chronological order: a fresh record first, then a stale one. -/
def c8_s2 : Store :=
  runAdd (fun l => l) c8_s0
    [⟨⟨some "a", some "tnew", none, none, false, []⟩, "x", 1⟩,
     ⟨⟨some "b", some "told", none, none, false, []⟩, "x", 2⟩]

/-- C8 counterexample: immediately after a cleanup pass at `now = 1000` over
a store whose entries arrived out of chronological order, a retained entry
still has a parsable timestamp (0) older than `now - max_age_seconds = 900`:
the prefix walk stopped at the fresh oldest entry and never reached the
stale one. -/
theorem c8_counterexample :
    hasStaleEntry c8_parse (1000 - c8_s2.max_age_seconds)
      (performCleanup c8_parse c8_s2 1000).entries = true := by
  with_unfolding_all decide

/-- The cleanup walk leaves no stale entry when every entry parses and the
entries are in chronological order. -/
theorem dropExpired_no_stale (parse : String → Option ℚ) (cutoff : ℚ) :
    ∀ l : List StoredEntry,
    (∀ e ∈ l, (parse e.timestamp).isSome) →
    l.Pairwise (fun a b => ptimeD parse a ≤ ptimeD parse b) →
    hasStaleEntry parse cutoff (dropExpired parse cutoff l) = false := by
  intro l
  induction l with
  | nil => intro _ _; rfl
  | cons e rest ih =>
    intro hsome hpw
    obtain ⟨q0, hq0⟩ := Option.isSome_iff_exists.mp (hsome e (by simp))
    rw [List.pairwise_cons] at hpw
    by_cases hlt : q0 < cutoff
    · have hstep : dropExpired parse cutoff (e :: rest) = dropExpired parse cutoff rest := by
        simp only [dropExpired, hq0]
        rw [if_pos hlt]
      rw [hstep]
      exact ih (fun x hx => hsome x (by simp [hx])) hpw.2
    · have hstep : dropExpired parse cutoff (e :: rest) = e :: rest := by
        simp only [dropExpired, hq0]
        rw [if_neg hlt]
      rw [hstep]
      simp only [hasStaleEntry, List.any_eq_false]
      intro x hx
      rcases List.mem_cons.mp hx with rfl | hx'
      · simp [hq0, hlt]
      · obtain ⟨qx, hqx⟩ := Option.isSome_iff_exists.mp (hsome x (by simp [hx']))
        have hord : ptimeD parse e ≤ ptimeD parse x := hpw.1 x hx'
        rw [ptimeD, ptimeD, hq0, hqx] at hord
        simp only [Option.getD_some] at hord
        simp only [hqx]
        simp only [decide_eq_true_eq]
        intro hcon
        exact absurd hcon (not_lt.mpr (le_trans (not_lt.mp hlt) hord))

/-- Decidable chronological order of retained entries by parsed timestamp. -/
def chronologicallySorted (parse : String → Option ℚ) : List StoredEntry → Bool
  | [] => true
  | [_] => true
  | a :: b :: rest =>
    decide (ptimeD parse a ≤ ptimeD parse b) &&
      chronologicallySorted parse (b :: rest)

theorem sorted_to_pairwise (parse : String → Option ℚ) :
    ∀ l : List StoredEntry, chronologicallySorted parse l = true →
    l.Pairwise (fun a b => ptimeD parse a ≤ ptimeD parse b) := by
  intro l
  induction l with
  | nil => intro _; exact List.Pairwise.nil
  | cons a tl ih =>
    intro hs
    cases tl with
    | nil => simp
    | cons b rest =>
      have hs' : chronologicallySorted parse (b :: rest) = true := by
        simp only [chronologicallySorted, Bool.and_eq_true] at hs
        exact hs.2
      have hab : ptimeD parse a ≤ ptimeD parse b := by
        simp only [chronologicallySorted, Bool.and_eq_true, decide_eq_true_eq] at hs
        exact hs.1
      have hrest := ih hs'
      rw [List.pairwise_cons]
      refine ⟨?_, hrest⟩
      intro x hx
      rcases List.mem_cons.mp hx with rfl | hx'
      · exact hab
      · rw [List.pairwise_cons] at hrest
        exact le_trans hab (hrest.1 x hx')

/-- C8 (amended): immediately after a cleanup pass, no retained entry has a
parsable timestamp older than `now - max_age_seconds`, provided every
retained entry's timestamp parses and the entries are in chronological
(non-decreasing) parse-time order; with out-of-order timestamps the walk may
stop early and retain stale entries (see the counterexample). -/
theorem c8_cleanup_age_bound_amended
    (parse : String → Option ℚ) (s : Store) (now : ℚ)
    (hsome : ∀ e ∈ s.entries, (parse e.timestamp).isSome)
    (hsorted : chronologicallySorted parse s.entries = true) :
    hasStaleEntry parse (now - s.max_age_seconds)
      (performCleanup parse s now).entries = false :=
  dropExpired_no_stale parse (now - s.max_age_seconds) s.entries hsome
    (sorted_to_pairwise parse s.entries hsorted)

/-- Concrete instance of `c8_cleanup_age_bound_amended`: a chronologically
ordered store is fully trimmed of stale entries. -/
theorem c8_cleanup_age_bound_amended_witness :
    hasStaleEntry c8_parse
      ((1000 : ℚ) -
        ({ max_entries := 10, max_age_seconds := 100,
           entries := [⟨some "b", "told", none, "info", 1, []⟩,
                       ⟨some "a", "tnew", none, "info", 2, []⟩],
           subscribers := [0], recent_hashes := [], session_start_time := 0,
           last_cleanup_time := 0 } : Store).max_age_seconds)
      (performCleanup c8_parse
        { max_entries := 10, max_age_seconds := 100,
          entries := [⟨some "b", "told", none, "info", 1, []⟩,
                      ⟨some "a", "tnew", none, "info", 2, []⟩],
          subscribers := [0], recent_hashes := [], session_start_time := 0,
          last_cleanup_time := 0 } 1000).entries = false :=
  c8_cleanup_age_bound_amended c8_parse _ 1000 (by decide) (by decide)

/-! ## C9: integrated statistics with throttling disabled -/

/-- C9 at the failing input: a Stream Manager built with message throttling
disabled (`throttled_broadcaster is None`) and a healthy monitor.  Line 395
evaluates `event_loop_monitor.is_healthy() and not
self.throttled_broadcaster.rate_limit_active`, and the attribute access on
`None` raises `AttributeError` — the statistics call does not return a
document. -/
theorem c9_integrated_stats_raises_when_throttling_disabled :
    getPerformanceIntegratedStats
      (mkStreamManager false
        { batch_interval := 1, max_batch_size := 100, pending_messages := ([] : List ℕ),
          flush_task_live := false, last_flush_time := 0, message_count := 0,
          rate_limit_active := false, circuit_breaker_threshold := 50,
          circuit_breaker_window := 10, circuit_breaker_recovery_time := 30 })
      { max_lag_ms := 40, check_interval := 1, last_check := 0,
        lag_measurements := [], max_measurements := 100,
        degradation_active := false, degradation_callbacks := [],
        severe_lag_threshold := 120, severe_lag_count := 0,
        max_severe_lag_count := 5 } 0 =
      Except.error
        "AttributeError: NoneType object has no attribute rate_limit_active" := by
  rfl

end Modul8r
